import Mathlib

/-!
Shallow embedding of the monthly distance aggregation core of the
kitchen_tressures_backend repository (file src/logic/monthly_distance.py).

Modelling conventions:
* pandas cells are modelled by Cell: a missing value (NaN / None), a numeric
  value (a rational, standing in for a Python float), or a string.
* a DataFrame is a header list plus rows; each row is an association list
  from column label to Cell (pandas cell access by column label).
* Python exceptions are modelled by Except String: the outer Except.error of
  calculate_monthly_distance is an exception escaping the function, while
  CalcResult.error is the structured error dict it returns on purpose.
* geopy geodesic is an external library; it is a parameter (Geo) returning
  Option (rational kilometers), none standing for a raising call.
* Python round(x, 2) is modelled exactly on rationals with the
  round-half-to-even rule; the rational arithmetic below is phrased with
  mkRat, Rat.floor and integer operations (kernel-computable forms); the
  theorems round2_spec, qadd_eq and qmul100_eq restate them with ordinary
  field operations.
* str.lower and string comparison are modelled at the character level
  (code point order), matching Python string comparison.
-/

/-- Cells of the tabular dataset: missing (NaN), numeric, or string. -/
inductive Cell where
  | na : Cell
  | num (q : ℚ) : Cell
  | str (s : String) : Cell
deriving DecidableEq

/-- One row of the dataframe: column label to cell value. -/
abbrev Row := List (String × Cell)

/-- A tabular dataset: header (column labels) and rows. -/
structure DataFrame where
  cols : List String
  rows : List Row
deriving DecidableEq

/-- Cell access df[col] for one row; labels missing from a row read as NaN. -/
def getCell (r : Row) (c : String) : Cell :=
  match r with
  | [] => Cell.na
  | (k, v) :: rest => if k = c then v else getCell rest c

/-- Membership of a label in the header list. -/
def hasCol (cols : List String) (c : String) : Bool :=
  match cols with
  | [] => false
  | k :: rest => if k = c then true else hasCol rest c

/-- pd.isna on a cell. -/
def Cell.isna : Cell → Bool
  | .na => true
  | _ => false

/-- Whether a cell holds a number. -/
def Cell.isNum : Cell → Bool
  | .num _ => true
  | _ => false

/-- Whether a cell holds a string. -/
def Cell.isStr : Cell → Bool
  | .str _ => true
  | _ => false

/-- Exact rational addition in kernel-computable form (see qadd_eq). -/
def qadd (a b : ℚ) : ℚ := mkRat (a.num * b.den + b.num * a.den) (a.den * b.den)

/-- Exact multiplication by 100 in kernel-computable form (see qmul100_eq). -/
def qmul100 (q : ℚ) : ℚ := mkRat (q.num * 100) q.den

/-- ASCII decimal digit test. -/
def isDigit (c : Char) : Bool := 48 ≤ c.toNat && c.toNat ≤ 57

/-- Reads a digit string as a natural number; none if a non-digit occurs. -/
def digitsToNat : ℕ → List Char → Option ℕ
  | acc, [] => some acc
  | acc, c :: cs => if isDigit c then digitsToNat (acc * 10 + (c.toNat - 48)) cs else none

/-- Splits a character list at the first dot, if any. -/
def splitDot : List Char → List Char × Option (List Char)
  | [] => ([], none)
  | c :: cs =>
    if c = '.' then ([], some cs)
    else
      let p := splitDot cs
      (c :: p.1, p.2)

/-- Parses an unsigned decimal literal (digits with an optional dot) into the
exact rational it denotes. -/
def parseUnsigned (cs : List Char) : Option ℚ :=
  match splitDot cs with
  | (intPart, none) =>
    if intPart = [] then none
    else
      match digitsToNat 0 intPart with
      | some n => some (mkRat n 1)
      | none => none
  | (intPart, some fracPart) =>
    if intPart = [] && fracPart = [] then none
    else
      match digitsToNat 0 intPart, digitsToNat 0 fracPart with
      | some n, some f => some (mkRat (n * 10 ^ fracPart.length + f) (10 ^ fracPart.length))
      | _, _ => none

/-- Model of Python float(s) on strings: decimal literals with optional sign. -/
def parseFloat (s : String) : Option ℚ :=
  match s.data with
  | [] => none
  | '-' :: rest => (parseUnsigned rest).map (fun q => mkRat (-q.num) q.den)
  | cs => parseUnsigned cs

/-- Model of Python int(s) on strings: integer literals with optional sign. -/
def parseIntStr (s : String) : Option ℤ :=
  match s.data with
  | [] => none
  | '-' :: rest =>
    if rest = [] then none
    else (digitsToNat 0 rest).map (fun n => -(n : ℤ))
  | cs => (digitsToNat 0 cs).map (fun n => (n : ℤ))

/-- Series.astype(float) on one cell: numbers pass, NaN stays NaN (none),
strings are parsed and raise ValueError when unparseable. -/
def Cell.toFloat : Cell → Except String (Option ℚ)
  | .na => .ok none
  | .num q => .ok (some q)
  | .str s =>
    match parseFloat s with
    | some q => .ok (some q)
    | none => .error ("ValueError: could not convert string to float: " ++ s)

/-- pd.to_numeric(errors="coerce") on one cell: unparseable values become NaN. -/
def toNumericCoerce : Cell → Cell
  | .na => .na
  | .num q => .num q
  | .str s =>
    match parseFloat s with
    | some q => .num q
    | none => .na

/-- The required_cols list of calculate_monthly_distance, in source order. -/
def required_cols : List String :=
  ["SO NAME", "SO_ERP_ID", "Latitude", "Longitude", "WEEK", "DAY", "VISIT_ORDER"]

/-- The first required column absent from the header, in required_cols order
(the source loop returns on the first missing column). -/
def findMissing (df : DataFrame) : Option String :=
  required_cols.find? (fun c => !hasCol df.cols c)

/-- df.dropna(subset=["Latitude", "Longitude"]). -/
def dropnaLatLong (df : DataFrame) : DataFrame :=
  { df with rows := df.rows.filter (fun r =>
      !(getCell r "Latitude").isna && !(getCell r "Longitude").isna) }

/-- Applies the VISIT_ORDER numeric coercion to one row. -/
def coerceRow (r : Row) : Row :=
  r.map (fun kv => if kv.1 = "VISIT_ORDER" then (kv.1, toNumericCoerce kv.2) else kv)

/-- The guarded to_numeric step of the source: coerces the VISIT_ORDER column
when present (the guard is the source's membership test). -/
def coerceVisitOrder (df : DataFrame) : DataFrame :=
  if hasCol df.cols "VISIT_ORDER" then { df with rows := df.rows.map coerceRow }
  else df

/-- The sort key columns of df.sort_values, in source order. -/
def sort_cols : List String :=
  ["SO NAME", "SO_ERP_ID", "WEEK", "DAY", "VISIT_ORDER"]

/-- All cells of one column. -/
def colCells (df : DataFrame) (c : String) : List Cell :=
  df.rows.map (fun r => getCell r c)

/-- A column mixing numbers and strings cannot be compared by sort_values
(pandas raises TypeError when it compares a number with a string). -/
def mixedTypes (cells : List Cell) : Bool :=
  cells.any Cell.isNum && cells.any Cell.isStr

/-- Whether all five sort key columns are free of number/string mixes, so
that df.sort_values completes instead of raising TypeError. -/
def checkSortKeys (df : DataFrame) : Bool :=
  sort_cols.all (fun c => !mixedTypes (colCells df c))

/-- Comparison of rationals as an Ordering. -/
def ratCmp (a b : ℚ) : Ordering :=
  if a < b then .lt else if b < a then .gt else .eq

/-- Code point comparison of character lists (Python string comparison). -/
def charListCmp : List Char → List Char → Ordering
  | [], [] => .eq
  | [], _ :: _ => .lt
  | _ :: _, [] => .gt
  | a :: as2, b :: bs =>
    if a < b then .lt else if b < a then .gt else charListCmp as2 bs

/-- Cell comparison used by the row sort: NaN sorts last (na_position last),
numbers by value, strings by code points.  The number/string case is
unreachable once checkSortKeys has passed. -/
def cellCmp : Cell → Cell → Ordering
  | .na, .na => .eq
  | .na, _ => .gt
  | _, .na => .lt
  | .num a, .num b => ratCmp a b
  | .str a, .str b => charListCmp a.data b.data
  | .num _, .str _ => .lt
  | .str _, .num _ => .gt

/-- Lexicographic comparison of cell lists (multi-column sort keys). -/
def cellsCmp : List Cell → List Cell → Ordering
  | [], [] => .eq
  | [], _ :: _ => .lt
  | _ :: _, [] => .gt
  | a :: as2, b :: bs =>
    match cellCmp a b with
    | .lt => .lt
    | .gt => .gt
    | .eq => cellsCmp as2 bs

/-- The sort key of one row: the five sort column cells. -/
def rowSortKey (r : Row) : List Cell := sort_cols.map (getCell r)

/-- Row comparison of the stable multi-column sort. -/
def rowLe (a b : Row) : Bool :=
  match cellsCmp (rowSortKey a) (rowSortKey b) with
  | .gt => false
  | _ => true

/-- df.sort_values(by=sort_cols): a stable sort on the five-column key
(pandas uses a stable lexicographic sort for multi-column keys). -/
def sortRows (df : DataFrame) : DataFrame :=
  { df with rows := List.insertionSort (fun a b => rowLe a b = true) df.rows }

/-- The groupby key: (SO NAME, SO_ERP_ID, WEEK, DAY). -/
abbrev GKey := Cell × Cell × Cell × Cell

/-- The groupby key cells of one row. -/
def rowGroupKey (r : Row) : GKey :=
  (getCell r "SO NAME", getCell r "SO_ERP_ID", getCell r "WEEK", getCell r "DAY")

/-- Whether a groupby key contains a missing value (such rows are dropped by
pandas groupby). -/
def keyHasNa (k : GKey) : Bool :=
  k.1.isna || k.2.1.isna || k.2.2.1.isna || k.2.2.2.isna

/-- Membership of a key in a key list. -/
def keyElem (k : GKey) : List GKey → Bool
  | [] => false
  | k2 :: ks => if k2 = k then true else keyElem k ks

/-- First-appearance deduplication of group keys (groupby with sort=False). -/
def dedupKeys : List GKey → List GKey → List GKey
  | acc, [] => acc
  | acc, k :: ks => if keyElem k acc then dedupKeys acc ks else dedupKeys (acc ++ [k]) ks

/-- df.groupby(["SO NAME", "SO_ERP_ID", "WEEK", "DAY"], sort=False): groups
in order of first appearance, each group holding its rows in frame order;
rows whose key contains NaN are dropped. -/
def groupRows (rows : List Row) : List (GKey × List Row) :=
  let rows2 := rows.filter (fun r => !keyHasNa (rowGroupKey r))
  (dedupKeys [] (rows2.map rowGroupKey)).map
    (fun k => (k, rows2.filter (fun r => decide (rowGroupKey r = k))))

/-- A coordinate pair as produced by astype(float): latitude and longitude,
none standing for NaN. -/
abbrev Coord := Option ℚ × Option ℚ

/-- The external geodesic distance (geopy): kilometers between two
coordinates, none when the library call raises. -/
abbrev Geo := Coord → Coord → Option ℚ

/-- Round-half-to-even to an integer (the rule of Python round), phrased on
the numerator and denominator: with n the floor of q, the fractional part
compares to one half as 2 * (q.num - n * q.den) compares to q.den. -/
def roundHalfEven (q : ℚ) : ℤ :=
  if 2 * (q.num - q.floor * q.den) < (q.den : ℤ) then q.floor
  else if (q.den : ℤ) < 2 * (q.num - q.floor * q.den) then q.floor + 1
  else if q.floor % 2 = 0 then q.floor else q.floor + 1

/-- Python round(x, 2) on an exact rational. -/
def round2 (q : ℚ) : ℚ := mkRat (roundHalfEven (qmul100 q)) 100

/-- The consecutive pairs (coords[i], coords[i+1]) of the source loop. -/
def consecutivePairs (coords : List Coord) : List (Coord × Coord) :=
  coords.zip coords.tail

/-- calculate_total_distance_for_day: 0.0 on fewer than two points (the
source guard also tests emptiness, subsumed by the length test), else the
sum over consecutive pairs where a raising geodesic call is skipped by the
except branch, rounded to two decimals. -/
def calculate_total_distance_for_day (geo : Geo) (coords : List Coord) : ℚ :=
  if coords.length ≤ 1 then 0
  else
    round2 ((consecutivePairs coords).foldl
      (fun acc p =>
        match geo p.1 p.2 with
        | some d => qadd acc d
        | none => acc) 0)

/-- group["Latitude"].astype(float) and alike on one column of a group:
returns the converted column or the first conversion exception. -/
def colFloats (c : String) : List Row → Except String (List (Option ℚ))
  | [] => .ok []
  | r :: rs =>
    match (getCell r c).toFloat with
    | .error e => .error e
    | .ok v =>
      match colFloats c rs with
      | .error e => .error e
      | .ok vs => .ok (v :: vs)

/-- list(zip(group["Latitude"].astype(float), group["Longitude"].astype(float))). -/
def groupCoords (rows : List Row) : Except String (List Coord) :=
  match colFloats "Latitude" rows with
  | .error e => .error e
  | .ok las =>
    match colFloats "Longitude" rows with
    | .error e => .error e
    | .ok los => .ok (las.zip los)

/-- Python int() truncation toward zero on a rational (division of the
numerator by the positive denominator, rounding toward zero). -/
def pyTrunc (q : ℚ) : ℤ := q.num.tdiv q.den

/-- The WEEK field of a detailed entry: int(week) if not pd.isna(week) else
week; int() of an unparseable string raises ValueError. -/
def weekVal (c : Cell) : Except String Cell :=
  if c.isna then .ok c
  else
    match c with
    | .num q => .ok (.num (mkRat (pyTrunc q) 1))
    | .str s =>
      match parseIntStr s with
      | some z => .ok (.num (mkRat z 1))
      | none => .error ("ValueError: invalid literal for int with base 10: " ++ s)
    | .na => .ok .na

/-- Python str() of a cell (DAY rendering and summary sort keys). -/
def Cell.pyStr : Cell → String
  | .na => "nan"
  | .num q => toString q
  | .str s => s

/-- One entry of the daily_breakdown list. -/
structure DayResult where
  so_name : Cell
  so_erp : Cell
  week : Cell
  day : String
  distance_km : ℚ
  outlets_visited : ℕ
deriving DecidableEq

/-- One entry of the summary list. -/
structure SummaryEntry where
  so_name : Cell
  so_erp : Cell
  total_monthly_distance_km : ℚ
deriving DecidableEq

/-- The per-salesperson running totals (defaultdict(float)) as an
insertion-ordered association list. -/
abbrev Results := List ((Cell × Cell) × ℚ)

/-- defaultdict(float) update: add to the entry in place, or append a new
key at the end. -/
def addResult : Results → (Cell × Cell) → ℚ → Results
  | [], k, v => [(k, v)]
  | (k2, v2) :: rest, k, v =>
    if k2 = k then (k2, qadd v2 v) :: rest else (k2, v2) :: addResult rest k v

/-- defaultdict(float) read: stored value, or 0.0 for an absent key. -/
def lookupQ : Results → (Cell × Cell) → ℚ
  | [], _ => 0
  | (k2, v) :: rest, k => if k2 = k then v else lookupQ rest k

/-- The group loop of calculate_monthly_distance: per group, converts the
coordinates (which can raise), computes the day distance, accumulates the
per-salesperson total and emits the detailed entry (whose int(week) can
raise). -/
def processGroups (geo : Geo) :
    List (GKey × List Row) → Results → Except String (Results × List DayResult)
  | [], res => .ok (res, [])
  | (k, rows) :: gs, res =>
    match groupCoords rows with
    | .error e => .error e
    | .ok coords =>
      let t := calculate_total_distance_for_day geo coords
      match weekVal k.2.2.1 with
      | .error e => .error e
      | .ok w =>
        match processGroups geo gs (addResult res (k.1, k.2.1) t) with
        | .error e => .error e
        | .ok (resF, ds) =>
          .ok (resF,
            { so_name := k.1, so_erp := k.2.1, week := w, day := (k.2.2.2).pyStr,
              distance_km := t, outlets_visited := coords.length } :: ds)

/-- The total_summary construction: one entry per accumulated key, the total
rounded to two decimals, in dict insertion order. -/
def mkSummary (res : Results) : List SummaryEntry :=
  res.map (fun kv => ⟨kv.1.1, kv.1.2, round2 kv.2⟩)

/-- ASCII lowercase of one character (str.lower). -/
def lowChar (c : Char) : Char :=
  if 65 ≤ c.toNat ∧ c.toNat ≤ 90 then Char.ofNat (c.toNat + 32) else c

/-- The summary sort key: (str(SO NAME).lower(), str(SO_ERP_ID)) at the
character level. -/
def summaryKey (e : SummaryEntry) : List Char × List Char :=
  ((e.so_name.pyStr).data.map lowChar, (e.so_erp.pyStr).data)

/-- Lexicographic comparison of summary sort keys (Python tuple comparison). -/
def keyCmp (a b : List Char × List Char) : Ordering :=
  match charListCmp a.1 b.1 with
  | .lt => .lt
  | .gt => .gt
  | .eq => charListCmp a.2 b.2

/-- Boolean order of summary entries under the sort key. -/
def summaryLeB (a b : SummaryEntry) : Bool :=
  match keyCmp (summaryKey a) (summaryKey b) with
  | .gt => false
  | _ => true

/-- Order of summary entries under the sort key, as a relation. -/
def summaryLe (a b : SummaryEntry) : Prop := summaryLeB a b = true

instance : DecidableRel summaryLe := fun a b =>
  inferInstanceAs (Decidable (summaryLeB a b = true))

/-- sorted(total_summary, key=...): Python sorted is stable; a stable sort
under a total preorder is the insertion sort. -/
def sortSummary (entries : List SummaryEntry) : List SummaryEntry :=
  List.insertionSort summaryLe entries

/-- The structured result dict of calculate_monthly_distance. -/
inductive CalcResult where
  | error (message : String) : CalcResult
  | success (summary : List SummaryEntry) (daily_breakdown : List DayResult) : CalcResult
deriving DecidableEq

/-- calculate_monthly_distance.  The input models pd.read_excel(file_path):
Except.error is a raising read, caught by the source's only try/except and
turned into a structured error.  The outer Except.error of the result is an
exception escaping the function (sort TypeError, astype or int ValueError);
CalcResult.error is the structured error dict. -/
def calculate_monthly_distance (geo : Geo) (input : Except String DataFrame) :
    Except String CalcResult :=
  match input with
  | .error e => .ok (.error ("Failed to read Excel file: " ++ e))
  | .ok df =>
    match findMissing df with
    | some c => .ok (.error ("Missing column: " ++ c))
    | none =>
      if checkSortKeys (coerceVisitOrder (dropnaLatLong df)) then
        match processGroups geo
            (groupRows (sortRows (coerceVisitOrder (dropnaLatLong df))).rows) [] with
        | .error e => .error e
        | .ok (res, detailed) => .ok (.success (sortSummary (mkSummary res)) detailed)
      else
        .error "TypeError: unorderable types in sort_values"

deriving instance DecidableEq for Except

/-- A geodesic oracle returning 5 km for every pair (witness data). -/
def geoW2 : Geo := fun _ _ => some 5

/-- A three-point route (witness data). -/
def coordsW2 : List Coord := [(some 1, some 1), (some 2, some 2), (some 3, some 3)]

/-- A geodesic oracle that fails when the first latitude is 1 (witness data). -/
def geoW5 : Geo := fun a _ => if a.1 = some 1 then none else some 2

/-- A three-point route whose first pair fails (witness data). -/
def coordsW5 : List Coord := [(some 1, some 1), (some 2, some 2), (some 3, some 3)]

/-- A geodesic oracle that always fails (witness data). -/
def geoW6 : Geo := fun _ _ => none

/-- A geodesic oracle returning 0 km for every pair (witness data). -/
def geoW4 : Geo := fun _ _ => some 0

/-- A header missing the SO_ERP_ID column (witness data). -/
def dfW4 : DataFrame :=
  ⟨["SO NAME", "Latitude", "Longitude", "WEEK", "DAY", "VISIT_ORDER"], []⟩

/-- A geodesic oracle returning 0 km for every pair (witness data). -/
def geoW10 : Geo := fun _ _ => some 0

/-- A header missing both SO_ERP_ID and DAY (witness data). -/
def dfW10 : DataFrame :=
  ⟨["SO NAME", "Latitude", "Longitude", "WEEK", "VISIT_ORDER"], []⟩

/-- A geodesic oracle returning 1 km for every pair (witness data). -/
def geoW7 : Geo := fun _ _ => some 1

/-- A dataset with salespeople Bob and alice, one visit each (witness data). -/
def dfW7 : DataFrame :=
  ⟨required_cols,
    [[("SO NAME", .str "Bob"), ("SO_ERP_ID", .str "E2"), ("Latitude", .num 1),
      ("Longitude", .num 1), ("WEEK", .num 1), ("DAY", .str "Mon"), ("VISIT_ORDER", .num 1)],
     [("SO NAME", .str "alice"), ("SO_ERP_ID", .str "E1"), ("Latitude", .num 2),
      ("Longitude", .num 2), ("WEEK", .num 1), ("DAY", .str "Mon"), ("VISIT_ORDER", .num 1)]]⟩

/-- A geodesic oracle returning 5 km for every pair (witness data). -/
def geoW3 : Geo := fun _ _ => some 5

/-- A dataset with one salesperson and two days (witness data). -/
def dfW3 : DataFrame :=
  ⟨required_cols,
    [[("SO NAME", .str "Ann"), ("SO_ERP_ID", .str "E1"), ("Latitude", .num 1),
      ("Longitude", .num 1), ("WEEK", .num 1), ("DAY", .str "Mon"), ("VISIT_ORDER", .num 1)],
     [("SO NAME", .str "Ann"), ("SO_ERP_ID", .str "E1"), ("Latitude", .num 2),
      ("Longitude", .num 2), ("WEEK", .num 1), ("DAY", .str "Mon"), ("VISIT_ORDER", .num 2)],
     [("SO NAME", .str "Ann"), ("SO_ERP_ID", .str "E1"), ("Latitude", .num 3),
      ("Longitude", .num 3), ("WEEK", .num 1), ("DAY", .str "Tue"), ("VISIT_ORDER", .num 1)]]⟩

/-- A geodesic oracle returning 2 km for every pair (witness data). -/
def geoW8 : Geo := fun _ _ => some 2

/-- A dataset with a two-row day, a dropped row (missing latitude) and a
one-row day (witness data). -/
def dfW8 : DataFrame :=
  ⟨required_cols,
    [[("SO NAME", .str "Cara"), ("SO_ERP_ID", .str "E3"), ("Latitude", .num 1),
      ("Longitude", .num 1), ("WEEK", .num 1), ("DAY", .str "Mon"), ("VISIT_ORDER", .num 1)],
     [("SO NAME", .str "Cara"), ("SO_ERP_ID", .str "E3"), ("Latitude", .num 2),
      ("Longitude", .num 2), ("WEEK", .num 1), ("DAY", .str "Mon"), ("VISIT_ORDER", .num 2)],
     [("SO NAME", .str "Cara"), ("SO_ERP_ID", .str "E3"), ("Latitude", Cell.na),
      ("Longitude", .num 2), ("WEEK", .num 1), ("DAY", .str "Mon"), ("VISIT_ORDER", .num 3)],
     [("SO NAME", .str "Cara"), ("SO_ERP_ID", .str "E3"), ("Latitude", .num 3),
      ("Longitude", .num 3), ("WEEK", .num 1), ("DAY", .str "Tue"), ("VISIT_ORDER", .num 1)]]⟩

/-- A geodesic oracle returning 0 km for every pair (witness data). -/
def geoW9 : Geo := fun _ _ => some 0

/-- A dataset in which every row misses a coordinate (witness data). -/
def dfW9 : DataFrame :=
  ⟨required_cols,
    [[("SO NAME", .str "Dan"), ("SO_ERP_ID", .str "E4"), ("Latitude", Cell.na),
      ("Longitude", .num 1), ("WEEK", .num 1), ("DAY", .str "Mon"), ("VISIT_ORDER", .num 1)],
     [("SO NAME", .str "Dan"), ("SO_ERP_ID", .str "E4"), ("Latitude", .num 2),
      ("Longitude", Cell.na), ("WEEK", .num 1), ("DAY", .str "Mon"), ("VISIT_ORDER", .num 2)]]⟩

/-- A geodesic oracle returning 0 km for every pair (counterexample data). -/
def geoC1 : Geo := fun _ _ => some 0

/-- A dataset whose Latitude cell holds the unconvertible string abc
(counterexample data). -/
def dfC1bad : DataFrame :=
  ⟨required_cols,
    [[("SO NAME", .str "Eve"), ("SO_ERP_ID", .str "E5"), ("Latitude", .str "abc"),
      ("Longitude", .num 1), ("WEEK", .num 1), ("DAY", .str "Mon"), ("VISIT_ORDER", .num 1)]]⟩

/-- A geodesic oracle returning 3 km for every pair (witness data). -/
def geoC1w : Geo := fun _ _ => some 3

/-- A well-typed single-row dataset (witness data). -/
def dfC1w : DataFrame :=
  ⟨required_cols,
    [[("SO NAME", .str "Fay"), ("SO_ERP_ID", .str "E6"), ("Latitude", .num 4),
      ("Longitude", .num 4), ("WEEK", .num 2), ("DAY", .str "Wed"), ("VISIT_ORDER", .num 1)]]⟩

/-! ## Bridges between the kernel-computable arithmetic and field operations -/

/-- mkRat is division of the casts. -/
theorem mkRatQ (n : ℤ) (d : ℕ) : (mkRat n d : ℚ) = (n : ℚ) / (d : ℚ) := by
  rw [Rat.mkRat_eq_divInt, Rat.divInt_eq_div]
  norm_cast

/-- qadd is rational addition. -/
theorem qadd_eq (a b : ℚ) : qadd a b = a + b := by
  unfold qadd
  rw [mkRatQ]
  have ha : (a.den : ℚ) ≠ 0 := by exact_mod_cast a.den_ne_zero
  have hb : (b.den : ℚ) ≠ 0 := by exact_mod_cast b.den_ne_zero
  conv_rhs => rw [← Rat.num_div_den a, ← Rat.num_div_den b]
  push_cast
  field_simp

/-- The defining identity q * den = num. -/
theorem rat_mul_den (q : ℚ) : q * (q.den : ℚ) = (q.num : ℚ) := by
  have hd : (q.den : ℚ) ≠ 0 := by exact_mod_cast q.den_ne_zero
  have h := Rat.num_div_den q
  rw [div_eq_iff hd] at h
  exact h.symm

/-- qmul100 is multiplication by 100. -/
theorem qmul100_eq (q : ℚ) : qmul100 q = q * 100 := by
  unfold qmul100
  rw [mkRatQ]
  have hd : (q.den : ℚ) ≠ 0 := by exact_mod_cast q.den_ne_zero
  rw [div_eq_iff hd]
  push_cast
  rw [mul_comm q 100, mul_assoc, rat_mul_den]
  ring

/-- Batteries floor agrees with the Mathlib floor. -/
theorem ratFloor_eq (q : ℚ) : q.floor = ⌊q⌋ := (Rat.floor_def' q).trans Rat.floor_def.symm

/-- roundHalfEven restated with field operations: round half to even. -/
theorem roundHalfEven_spec (q : ℚ) :
    roundHalfEven q =
      if q - ⌊q⌋ < 1/2 then ⌊q⌋
      else if 1/2 < q - ⌊q⌋ then ⌊q⌋ + 1
      else if ⌊q⌋ % 2 = 0 then ⌊q⌋ else ⌊q⌋ + 1 := by
  have hd : (0 : ℚ) < (q.den : ℚ) := by exact_mod_cast q.pos
  have hfr : q - (⌊q⌋ : ℚ) = ((q.num - ⌊q⌋ * q.den : ℤ) : ℚ) / (q.den : ℚ) := by
    rw [eq_div_iff hd.ne']
    push_cast
    rw [sub_mul, rat_mul_den]
  have hiff1 : (2 * (q.num - ⌊q⌋ * q.den) < (q.den : ℤ)) ↔ (q - (⌊q⌋ : ℚ) < 1/2) := by
    rw [hfr, div_lt_iff₀ hd]
    push_cast
    constructor
    · intro h
      have h2 : (2 : ℚ) * ((q.num : ℚ) - (⌊q⌋ : ℚ) * (q.den : ℚ)) < (q.den : ℚ) := by
        exact_mod_cast h
      linarith
    · intro h
      have h2 : (2 : ℚ) * ((q.num : ℚ) - (⌊q⌋ : ℚ) * (q.den : ℚ)) < (q.den : ℚ) := by
        linarith
      exact_mod_cast h2
  have hiff2 : ((q.den : ℤ) < 2 * (q.num - ⌊q⌋ * q.den)) ↔ ((1:ℚ)/2 < q - (⌊q⌋ : ℚ)) := by
    rw [hfr, lt_div_iff₀ hd]
    push_cast
    constructor
    · intro h
      have h2 : (q.den : ℚ) < (2 : ℚ) * ((q.num : ℚ) - (⌊q⌋ : ℚ) * (q.den : ℚ)) := by
        exact_mod_cast h
      linarith
    · intro h
      have h2 : (q.den : ℚ) < (2 : ℚ) * ((q.num : ℚ) - (⌊q⌋ : ℚ) * (q.den : ℚ)) := by
        linarith
      exact_mod_cast h2
  unfold roundHalfEven
  rw [ratFloor_eq]
  simp only [hiff1, hiff2]

/-- round2 restated with field operations. -/
theorem round2_spec (q : ℚ) : round2 q = ((roundHalfEven (q * 100) : ℤ) : ℚ) / 100 := by
  unfold round2
  rw [qmul100_eq, mkRatQ]
  norm_num

/-- roundHalfEven is the identity on integers. -/
theorem roundHalfEven_intCast (z : ℤ) : roundHalfEven ((z : ℚ)) = z := by
  rw [roundHalfEven_spec]
  rw [Int.floor_intCast]
  norm_num

/-- round2 is the identity on multiples of one hundredth. -/
theorem round2_centi (z : ℤ) : round2 ((z : ℚ)/100) = (z : ℚ)/100 := by
  rw [round2_spec]
  have h : ((z : ℚ)/100) * 100 = (z : ℚ) := by field_simp
  rw [h, roundHalfEven_intCast]

/-- Every round2 value is a multiple of one hundredth. -/
theorem round2_isCenti (q : ℚ) : ∃ z : ℤ, round2 q = (z : ℚ)/100 := by
  refine ⟨roundHalfEven (qmul100 q), ?_⟩
  unfold round2
  rw [mkRatQ]
  norm_num

/-- round2 fixes zero. -/
theorem round2_zero : round2 0 = 0 := by
  simpa using round2_centi 0

/-! ## The per-day distance function -/

/-- The accumulating loop of calculate_total_distance_for_day sums exactly
the successful geodesic results. -/
theorem foldl_qadd_eq_sum (geo : Geo) (l : List (Coord × Coord)) (a : ℚ) :
    l.foldl (fun acc p => match geo p.1 p.2 with | some d => qadd acc d | none => acc) a
      = a + (l.filterMap (fun p => geo p.1 p.2)).sum := by
  induction l generalizing a with
  | nil => simp
  | cons p l ih =>
    simp only [List.foldl_cons, List.filterMap_cons]
    cases hg : geo p.1 p.2 with
    | none => simp only [hg, ih]
    | some d =>
      simp only [hg]
      rw [ih, qadd_eq, List.sum_cons]
      ring

/-- Fewer than two points have no consecutive pairs. -/
theorem consecutivePairs_short (coords : List Coord) (h : coords.length ≤ 1) :
    consecutivePairs coords = [] := by
  match coords with
  | [] => rfl
  | [c] => rfl
  | c1 :: c2 :: cs => simp at h

/-- calculate_total_distance_for_day equals the rounded sum of the geodesic
distances of exactly those consecutive pairs on which the geodesic call
succeeds. -/
theorem day_distance_eq (geo : Geo) (coords : List Coord) :
    calculate_total_distance_for_day geo coords
      = round2 (((consecutivePairs coords).filterMap (fun p => geo p.1 p.2)).sum) := by
  unfold calculate_total_distance_for_day
  by_cases h : coords.length ≤ 1
  · rw [if_pos h, consecutivePairs_short coords h]
    simp [round2_zero]
  · rw [if_neg h, foldl_qadd_eq_sum]
    simp

/-- When a list maps to all-some, filterMap recovers the values. -/
theorem filterMap_eq_of_map_some {α β : Type} (f : α → Option β) :
    ∀ (l : List α) (ds : List β), l.map f = ds.map some → l.filterMap f = ds := by
  intro l
  induction l with
  | nil =>
    intro ds h
    simp only [List.map_nil] at h
    have := (List.map_eq_nil_iff.mp h.symm)
    simp [this]
  | cons a l ih =>
    intro ds h
    cases ds with
    | nil => simp at h
    | cons d ds2 =>
      simp only [List.map_cons, List.cons.injEq] at h
      rw [List.filterMap_cons, h.1, ih ds2 h.2]

/-- C2: on an ordered sequence of two or more coordinate pairs on which every
per-pair geodesic computation succeeds, calculate_total_distance_for_day
returns the sum of the geodesic distances between consecutive pairs, in the
given order, rounded to 2 decimal places. -/
theorem C2_day_distance_sums_pairs (geo : Geo) (coords : List Coord) (ds : List ℚ)
    (_hlen : 2 ≤ coords.length)
    (hall : (consecutivePairs coords).map (fun p => geo p.1 p.2) = ds.map some) :
    calculate_total_distance_for_day geo coords = round2 ds.sum := by
  rw [day_distance_eq, filterMap_eq_of_map_some _ _ _ hall]

/-- Witness for C2 at a concrete three-point route with 5 km legs. -/
theorem C2_day_distance_sums_pairs_witness :
    2 ≤ coordsW2.length ∧
      (consecutivePairs coordsW2).map (fun p => geoW2 p.1 p.2) = ([5, 5] : List ℚ).map some ∧
      calculate_total_distance_for_day geoW2 coordsW2 = round2 ([5, 5] : List ℚ).sum :=
  ⟨by decide, by decide, C2_day_distance_sums_pairs geoW2 coordsW2 [5, 5] (by decide) (by decide)⟩

/-- C5: when the geodesic computation fails on some consecutive pair, the
pair is skipped (contributes nothing), the remaining pairs are still summed,
and no failure is surfaced: the function still returns the rounded sum of
the successful pairs. -/
theorem C5_failed_pair_skipped (geo : Geo) (coords : List Coord)
    (_h : ∃ p ∈ consecutivePairs coords, geo p.1 p.2 = none) :
    calculate_total_distance_for_day geo coords
      = round2 (((consecutivePairs coords).filterMap (fun p => geo p.1 p.2)).sum) :=
  day_distance_eq geo coords

/-- Witness for C5 at a route whose first pair fails. -/
theorem C5_failed_pair_skipped_witness :
    (∃ p ∈ consecutivePairs coordsW5, geoW5 p.1 p.2 = none) ∧
      calculate_total_distance_for_day geoW5 coordsW5
        = round2 (((consecutivePairs coordsW5).filterMap (fun p => geoW5 p.1 p.2)).sum) :=
  ⟨by decide, C5_failed_pair_skipped geoW5 coordsW5 (by decide)⟩

/-- C6: on fewer than two coordinate pairs the day distance is exactly 0.0. -/
theorem C6_short_input_zero (geo : Geo) (coords : List Coord)
    (h : coords.length < 2) :
    calculate_total_distance_for_day geo coords = 0 := by
  unfold calculate_total_distance_for_day
  rw [if_pos (by omega)]

/-- Witness for C6 at a one-point route. -/
theorem C6_short_input_zero_witness :
    ([((some 1 : Option ℚ), (some 1 : Option ℚ))] : List Coord).length < 2 ∧
      calculate_total_distance_for_day geoW6 [((some 1 : Option ℚ), (some 1 : Option ℚ))] = 0 :=
  ⟨by decide, C6_short_input_zero geoW6 _ (by decide)⟩

/-! ## Column validation -/

/-- hasCol decides membership in the header. -/
theorem hasCol_iff (cols : List String) (c : String) : hasCol cols c = true ↔ c ∈ cols := by
  induction cols with
  | nil => simp [hasCol]
  | cons k rest ih =>
    by_cases hk : k = c
    · subst hk
      simp [hasCol]
    · rw [hasCol, if_neg hk, ih]
      simp [List.mem_cons, Ne.symm hk]

/-- find? returns the first element satisfying the test: everything before
its index fails the test. -/
theorem find?_first {α : Type} (d : α) (p : α → Bool) :
    ∀ (l : List α) (a : α), l.find? p = some a →
      ∃ i, i < l.length ∧ l.getD i d = a ∧ ∀ j, j < i → p (l.getD j d) = false := by
  intro l
  induction l with
  | nil => intro a h; simp at h
  | cons x xs ih =>
    intro a h
    cases hx : p x with
    | true =>
      rw [List.find?_cons_of_pos _ hx] at h
      obtain rfl : x = a := Option.some.inj h
      exact ⟨0, Nat.succ_pos _, rfl, fun j hj => absurd hj (Nat.not_lt_zero j)⟩
    | false =>
      rw [List.find?_cons_of_neg _ (by simp [hx])] at h
      obtain ⟨i, hi, hget, hfirst⟩ := ih a h
      refine ⟨i + 1, by simpa using hi, by simpa using hget, ?_⟩
      intro j hj
      cases j with
      | zero => simpa using hx
      | succ j2 =>
        rw [List.getD_cons_succ]
        exact hfirst j2 (by omega)

/-- C4: a dataset missing a required column yields the structured error
naming a missing required column, with no summary or breakdown, and without
doing any row processing: the result does not depend on the rows at all. -/
theorem C4_missing_column_fails_fast (geo : Geo) (df : DataFrame)
    (h : ∃ c ∈ required_cols, c ∉ df.cols) :
    ∃ c, c ∈ required_cols ∧ c ∉ df.cols ∧
      calculate_monthly_distance geo (.ok df) = .ok (.error ("Missing column: " ++ c)) ∧
      ∀ rows2 : List Row,
        calculate_monthly_distance geo (.ok ⟨df.cols, rows2⟩)
          = .ok (.error ("Missing column: " ++ c)) := by
  have hs : (required_cols.find? (fun c => !hasCol df.cols c)).isSome := by
    rw [List.find?_isSome]
    obtain ⟨c, hc, hnc⟩ := h
    refine ⟨c, hc, ?_⟩
    have hh : hasCol df.cols c = false := by
      cases hh2 : hasCol df.cols c
      · rfl
      · exact absurd ((hasCol_iff df.cols c).mp hh2) hnc
    simp [hh]
  obtain ⟨c, hc⟩ := Option.isSome_iff_exists.mp hs
  have hmem := List.mem_of_find?_eq_some hc
  have hp := List.find?_some hc
  have hnotin : c ∉ df.cols := by
    intro hin
    rw [Bool.not_eq_true'] at hp
    rw [(hasCol_iff df.cols c).mpr hin] at hp
    cases hp
  refine ⟨c, hmem, hnotin, ?_, ?_⟩
  · have hfm : findMissing df = some c := hc
    simp [calculate_monthly_distance, hfm]
  · intro rows2
    have hfm : findMissing ⟨df.cols, rows2⟩ = some c := hc
    simp [calculate_monthly_distance, hfm]

/-- Witness for C4: the header of dfW4 lacks SO_ERP_ID. -/
theorem C4_missing_column_fails_fast_witness :
    (∃ c ∈ required_cols, c ∉ dfW4.cols) ∧
      ∃ c, c ∈ required_cols ∧ c ∉ dfW4.cols ∧
        calculate_monthly_distance geoW4 (.ok dfW4) = .ok (.error ("Missing column: " ++ c)) ∧
        ∀ rows2 : List Row,
          calculate_monthly_distance geoW4 (.ok ⟨dfW4.cols, rows2⟩)
            = .ok (.error ("Missing column: " ++ c)) :=
  ⟨by decide, C4_missing_column_fails_fast geoW4 dfW4 (by decide)⟩

/-- C10: with several required columns missing, the reported column is the
first missing one in the fixed check order of required_cols, and the message
is exactly "Missing column: " followed by that name. -/
theorem C10_first_missing_column_reported (geo : Geo) (df : DataFrame)
    (h : ∃ c1 ∈ required_cols, ∃ c2 ∈ required_cols,
      c1 ≠ c2 ∧ c1 ∉ df.cols ∧ c2 ∉ df.cols) :
    ∃ i, i < required_cols.length ∧
      required_cols.getD i "" ∉ df.cols ∧
      (∀ j, j < i → required_cols.getD j "" ∈ df.cols) ∧
      calculate_monthly_distance geo (.ok df)
        = .ok (.error ("Missing column: " ++ required_cols.getD i "")) := by
  have hs : (required_cols.find? (fun c => !hasCol df.cols c)).isSome := by
    rw [List.find?_isSome]
    obtain ⟨c1, hc1, _, _, _, hn1, _⟩ := h
    refine ⟨c1, hc1, ?_⟩
    have hh : hasCol df.cols c1 = false := by
      cases hh2 : hasCol df.cols c1
      · rfl
      · exact absurd ((hasCol_iff df.cols c1).mp hh2) hn1
    simp [hh]
  obtain ⟨c, hc⟩ := Option.isSome_iff_exists.mp hs
  have hp := List.find?_some hc
  obtain ⟨i, hi, hget, hfirst⟩ := find?_first "" _ _ _ hc
  refine ⟨i, hi, ?_, ?_, ?_⟩
  · rw [hget]
    intro hin
    rw [Bool.not_eq_true'] at hp
    rw [(hasCol_iff df.cols c).mpr hin] at hp
    cases hp
  · intro j hj
    have := hfirst j hj
    rw [Bool.not_eq_false'] at this
    exact (hasCol_iff df.cols _).mp this
  · have hfm : findMissing df = some c := hc
    rw [hget]
    simp [calculate_monthly_distance, hfm]

/-- Witness for C10: dfW10 lacks both SO_ERP_ID and DAY; SO_ERP_ID comes
first in the check order. -/
theorem C10_first_missing_column_reported_witness :
    (∃ c1 ∈ required_cols, ∃ c2 ∈ required_cols,
      c1 ≠ c2 ∧ c1 ∉ dfW10.cols ∧ c2 ∉ dfW10.cols) ∧
      ∃ i, i < required_cols.length ∧
        required_cols.getD i "" ∉ dfW10.cols ∧
        (∀ j, j < i → required_cols.getD j "" ∈ dfW10.cols) ∧
        calculate_monthly_distance geoW10 (.ok dfW10)
          = .ok (.error ("Missing column: " ++ required_cols.getD i "")) :=
  ⟨by decide, C10_first_missing_column_reported geoW10 dfW10 (by decide)⟩

/-! ## The summary order -/

/-- charListCmp answers eq exactly on equal lists. -/
theorem charListCmp_eq_iff : ∀ as2 bs : List Char, charListCmp as2 bs = .eq ↔ as2 = bs := by
  intro as2
  induction as2 with
  | nil =>
    intro bs
    cases bs with
    | nil => simp [charListCmp]
    | cons b bs2 => simp [charListCmp]
  | cons a as3 ih =>
    intro bs
    cases bs with
    | nil => simp [charListCmp]
    | cons b bs2 =>
      rw [charListCmp]
      by_cases hab : a < b
      · rw [if_pos hab]
        simp only [List.cons.injEq]
        constructor
        · intro hh; cases hh
        · rintro ⟨h1, h2⟩
          exact absurd (h1 ▸ hab) (lt_irrefl b)
      · rw [if_neg hab]
        by_cases hba : b < a
        · rw [if_pos hba]
          simp only [List.cons.injEq]
          constructor
          · intro hh; cases hh
          · rintro ⟨h1, h2⟩
            exact absurd (h1 ▸ hba) (lt_irrefl b)
        · rw [if_neg hba]
          have hab2 : a = b := le_antisymm (not_lt.mp hba) (not_lt.mp hab)
          rw [ih bs2]
          simp [hab2]

/-- Swapping the arguments of charListCmp swaps the answer. -/
theorem charListCmp_swap : ∀ as2 bs : List Char, charListCmp bs as2 = (charListCmp as2 bs).swap := by
  intro as2
  induction as2 with
  | nil =>
    intro bs
    cases bs with
    | nil => rfl
    | cons b bs2 => rfl
  | cons a as3 ih =>
    intro bs
    cases bs with
    | nil => rfl
    | cons b bs2 =>
      rw [charListCmp, charListCmp]
      by_cases hab : a < b
      · simp [hab, asymm hab, Ordering.swap]
      · by_cases hba : b < a
        · simp [hba, hab, Ordering.swap]
        · simp [hab, hba, ih bs2]

/-- charListCmp strict answers are transitive. -/
theorem charListCmp_lt_trans :
    ∀ as2 bs cs : List Char, charListCmp as2 bs = .lt → charListCmp bs cs = .lt →
      charListCmp as2 cs = .lt := by
  intro as2
  induction as2 with
  | nil =>
    intro bs cs h1 h2
    cases bs with
    | nil => exact h2
    | cons b bs2 =>
      cases cs with
      | nil => simp [charListCmp] at h2
      | cons c cs2 => rfl
  | cons a as3 ih =>
    intro bs cs h1 h2
    cases bs with
    | nil => simp [charListCmp] at h1
    | cons b bs2 =>
      cases cs with
      | nil => simp [charListCmp] at h2
      | cons c cs2 =>
        rw [charListCmp] at h1 h2 ⊢
        by_cases hab : a < b
        · rw [if_pos hab] at h1
          by_cases hbc : b < c
          · rw [if_pos (hab.trans hbc)]
          · rw [if_neg hbc] at h2
            by_cases hcb : c < b
            · rw [if_pos hcb] at h2; cases h2
            · have hbc2 : b = c := le_antisymm (not_lt.mp hcb) (not_lt.mp hbc)
              rw [if_pos (hbc2 ▸ hab)]
        · rw [if_neg hab] at h1
          by_cases hba : b < a
          · rw [if_pos hba] at h1; cases h1
          · rw [if_neg hba] at h1
            have hab2 : a = b := le_antisymm (not_lt.mp hba) (not_lt.mp hab)
            subst hab2
            by_cases hac : a < c
            · rw [if_pos hac]
            · rw [if_neg hac] at h2 ⊢
              by_cases hca : c < a
              · rw [if_pos hca] at h2; cases h2
              · rw [if_neg hca] at h2 ⊢
                exact ih bs2 cs2 h1 h2

/-- keyCmp answers eq exactly on equal keys. -/
theorem keyCmp_eq_iff (a b : List Char × List Char) : keyCmp a b = .eq ↔ a = b := by
  unfold keyCmp
  cases h1 : charListCmp a.1 b.1 with
  | lt =>
    constructor
    · intro hh; cases hh
    · intro hh
      rw [hh, (charListCmp_eq_iff b.1 b.1).mpr rfl] at h1
      cases h1
  | gt =>
    constructor
    · intro hh; cases hh
    · intro hh
      rw [hh, (charListCmp_eq_iff b.1 b.1).mpr rfl] at h1
      cases h1
  | eq =>
    rw [charListCmp_eq_iff, Prod.ext_iff]
    have := (charListCmp_eq_iff a.1 b.1).mp h1
    simp [this]

/-- Swapping the arguments of keyCmp swaps the answer. -/
theorem keyCmp_swap (a b : List Char × List Char) : keyCmp b a = (keyCmp a b).swap := by
  unfold keyCmp
  rw [charListCmp_swap a.1 b.1, charListCmp_swap a.2 b.2]
  cases charListCmp a.1 b.1 <;> rfl

/-- keyCmp strict answers are transitive. -/
theorem keyCmp_lt_trans (a b c : List Char × List Char)
    (h1 : keyCmp a b = .lt) (h2 : keyCmp b c = .lt) : keyCmp a c = .lt := by
  unfold keyCmp at h1 h2 ⊢
  cases hab : charListCmp a.1 b.1 with
  | gt => rw [hab] at h1; cases h1
  | lt =>
    cases hbc : charListCmp b.1 c.1 with
    | gt => rw [hbc] at h2; cases h2
    | lt => rw [charListCmp_lt_trans _ _ _ hab hbc]
    | eq =>
      have := (charListCmp_eq_iff b.1 c.1).mp hbc
      rw [← this, hab]
  | eq =>
    have hfst := (charListCmp_eq_iff a.1 b.1).mp hab
    rw [hab] at h1
    cases hbc : charListCmp b.1 c.1 with
    | gt => rw [hbc] at h2; cases h2
    | lt => rw [hfst, hbc]
    | eq =>
      rw [hbc] at h2
      have hsnd := (charListCmp_eq_iff b.1 c.1).mp hbc
      rw [hfst, hbc]
      exact charListCmp_lt_trans _ _ _ h1 h2

/-- summaryLe is total. -/
theorem summaryLe_total (a b : SummaryEntry) : summaryLe a b ∨ summaryLe b a := by
  unfold summaryLe summaryLeB
  cases h : keyCmp (summaryKey a) (summaryKey b) with
  | lt => left; rfl
  | eq => left; rfl
  | gt =>
    right
    rw [keyCmp_swap, h]
    rfl

/-- summaryLe is transitive. -/
theorem summaryLe_trans (a b c : SummaryEntry)
    (h1 : summaryLe a b) (h2 : summaryLe b c) : summaryLe a c := by
  unfold summaryLe summaryLeB at h1 h2 ⊢
  cases hab : keyCmp (summaryKey a) (summaryKey b) with
  | gt => rw [hab] at h1; cases h1
  | lt =>
    cases hbc : keyCmp (summaryKey b) (summaryKey c) with
    | gt => rw [hbc] at h2; cases h2
    | lt => rw [keyCmp_lt_trans _ _ _ hab hbc]
    | eq =>
      have := (keyCmp_eq_iff _ _).mp hbc
      rw [← this, hab]
  | eq =>
    have := (keyCmp_eq_iff _ _).mp hab
    rw [this]
    exact h2

/-- Successful results of calculate_monthly_distance come from the group
pipeline: the breakdown is the processGroups output on the sorted, filtered,
coerced frame and the summary is the sorted rollup of its totals. -/
theorem calc_success_inv (geo : Geo) (input : Except String DataFrame)
    (s : List SummaryEntry) (d : List DayResult)
    (h : calculate_monthly_distance geo input = .ok (.success s d)) :
    ∃ df : DataFrame, input = .ok df ∧
      ∃ res : Results,
        processGroups geo (groupRows (sortRows (coerceVisitOrder (dropnaLatLong df))).rows) []
          = .ok (res, d) ∧
        s = sortSummary (mkSummary res) := by
  cases input with
  | error e => simp [calculate_monthly_distance] at h
  | ok df =>
    refine ⟨df, rfl, ?_⟩
    simp only [calculate_monthly_distance] at h
    cases hf : findMissing df with
    | some c => rw [hf] at h; simp at h
    | none =>
      rw [hf] at h
      by_cases hs : checkSortKeys (coerceVisitOrder (dropnaLatLong df)) = true
      · rw [if_pos hs] at h
        cases hp : processGroups geo
            (groupRows (sortRows (coerceVisitOrder (dropnaLatLong df))).rows) [] with
        | error e => rw [hp] at h; simp at h
        | ok p =>
          obtain ⟨res, det⟩ := p
          rw [hp] at h
          simp only [Except.ok.injEq, CalcResult.success.injEq] at h
          exact ⟨res, by rw [← h.2], h.1.symm⟩
      · rw [if_neg hs] at h
        simp at h

/-- C7: the summary of every successful result is sorted by salesperson name
compared case-insensitively, with the id string as tiebreak. -/
theorem C7_summary_sorted (geo : Geo) (input : Except String DataFrame)
    (s : List SummaryEntry) (d : List DayResult)
    (h : calculate_monthly_distance geo input = .ok (.success s d)) :
    List.Sorted summaryLe s := by
  obtain ⟨df, _, res, _, hsum⟩ := calc_success_inv geo input s d h
  rw [hsum]
  unfold sortSummary
  haveI htot : IsTotal SummaryEntry summaryLe := ⟨summaryLe_total⟩
  haveI htrans : IsTrans SummaryEntry summaryLe := ⟨summaryLe_trans⟩
  exact List.sorted_insertionSort summaryLe (mkSummary res)

/-- Witness for C7: Bob and alice end up ordered [alice, Bob]. -/
theorem C7_summary_sorted_witness :
    calculate_monthly_distance geoW7 (.ok dfW7) = .ok (.success
      [⟨.str "alice", .str "E1", 0⟩, ⟨.str "Bob", .str "E2", 0⟩]
      [⟨.str "Bob", .str "E2", .num 1, "Mon", 0, 1⟩,
       ⟨.str "alice", .str "E1", .num 1, "Mon", 0, 1⟩]) ∧
    List.Sorted summaryLe
      [⟨.str "alice", .str "E1", 0⟩, ⟨.str "Bob", .str "E2", 0⟩] := by
  have h : calculate_monthly_distance geoW7 (.ok dfW7) = .ok (.success
      [⟨.str "alice", .str "E1", 0⟩, ⟨.str "Bob", .str "E2", 0⟩]
      [⟨.str "Bob", .str "E2", .num 1, "Mon", 0, 1⟩,
       ⟨.str "alice", .str "E1", .num 1, "Mon", 0, 1⟩]) := by decide
  exact ⟨h, C7_summary_sorted geoW7 (.ok dfW7) _ _ h⟩


/-! ## The summary totals -/

/-- Reading a defaultdict after an update. -/
theorem addResult_lookup :
    ∀ (res : Results) (k0 : Cell × Cell) (v : ℚ) (k : Cell × Cell),
      lookupQ (addResult res k0 v) k
        = if k0 = k then lookupQ res k + v else lookupQ res k := by
  intro res
  induction res with
  | nil =>
    intro k0 v k
    by_cases hk : k0 = k
    · simp [addResult, lookupQ, hk]
    · simp [addResult, lookupQ, hk]
  | cons kv rest ih =>
    intro k0 v k
    obtain ⟨k2, v2⟩ := kv
    rw [addResult]
    by_cases h20 : k2 = k0
    · rw [if_pos h20]
      by_cases h0k : k0 = k
      · rw [if_pos h0k, lookupQ, lookupQ, if_pos (h20.trans h0k), if_pos (h20.trans h0k),
          qadd_eq]
      · have h2k : ¬ k2 = k := fun hh => h0k (h20 ▸ hh)
        rw [if_neg h0k, lookupQ, lookupQ, if_neg h2k, if_neg h2k]
    · rw [if_neg h20]
      by_cases h2k : k2 = k
      · have h0k : ¬ k0 = k := fun hh => h20 (h2k ▸ hh.symm)
        rw [if_neg h0k, lookupQ, lookupQ, if_pos h2k, if_pos h2k]
      · rw [lookupQ, lookupQ, if_neg h2k, if_neg h2k, ih]

/-- Keys after a defaultdict update. -/
theorem addResult_mem_keys :
    ∀ (res : Results) (k0 : Cell × Cell) (v : ℚ) (k : Cell × Cell),
      k ∈ (addResult res k0 v).map Prod.fst ↔ k ∈ res.map Prod.fst ∨ k = k0 := by
  intro res
  induction res with
  | nil =>
    intro k0 v k
    simp [addResult, eq_comm]
  | cons kv rest ih =>
    intro k0 v k
    obtain ⟨k2, v2⟩ := kv
    rw [addResult]
    by_cases h20 : k2 = k0
    · subst h20
      rw [if_pos rfl]
      simp only [List.map_cons, List.mem_cons]
      tauto
    · rw [if_neg h20]
      simp only [List.map_cons, List.mem_cons, ih]
      tauto

/-- A defaultdict update keeps the keys distinct. -/
theorem addResult_nodup :
    ∀ (res : Results) (k0 : Cell × Cell) (v : ℚ),
      (res.map Prod.fst).Nodup → ((addResult res k0 v).map Prod.fst).Nodup := by
  intro res
  induction res with
  | nil =>
    intro k0 v _
    simp [addResult]
  | cons kv rest ih =>
    intro k0 v hnd
    obtain ⟨k2, v2⟩ := kv
    simp only [List.map_cons, List.nodup_cons] at hnd
    rw [addResult]
    by_cases h20 : k2 = k0
    · rw [if_pos h20]
      simp only [List.map_cons, List.nodup_cons]
      exact hnd
    · rw [if_neg h20]
      simp only [List.map_cons, List.nodup_cons]
      refine ⟨?_, ih k0 v hnd.2⟩
      rw [addResult_mem_keys]
      rintro (hh | hh)
      · exact hnd.1 hh
      · exact h20 hh

/-- With distinct keys, lookupQ reads the stored value. -/
theorem lookupQ_mem :
    ∀ (res : Results) (k : Cell × Cell) (v : ℚ),
      (res.map Prod.fst).Nodup → (k, v) ∈ res → lookupQ res k = v := by
  intro res
  induction res with
  | nil => intro k v _ hm; simp at hm
  | cons kv rest ih =>
    intro k v hnd hm
    obtain ⟨k2, v2⟩ := kv
    simp only [List.map_cons, List.nodup_cons] at hnd
    cases List.mem_cons.mp hm with
    | inl hh =>
      injection hh with h1 h2
      rw [lookupQ, if_pos h1.symm]
      exact h2.symm
    | inr hh =>
      have hk2 : ¬ k2 = k := by
        intro hkk
        subst hkk
        exact hnd.1 (List.mem_map.mpr ⟨(k2, v), hh, rfl⟩)
      rw [lookupQ, if_neg hk2]
      exact ih k v hnd.2 hh

/-- The group loop keeps the totals keys distinct. -/
theorem processGroups_nodup (geo : Geo) :
    ∀ (gs : List (GKey × List Row)) (res resF : Results) (ds : List DayResult),
      (res.map Prod.fst).Nodup → processGroups geo gs res = .ok (resF, ds) →
      (resF.map Prod.fst).Nodup := by
  intro gs
  induction gs with
  | nil =>
    intro res resF ds hnd h
    rw [processGroups] at h
    injection h with h2
    injection h2 with ha hb
    subst ha
    exact hnd
  | cons g gs ih =>
    intro res resF ds hnd h
    obtain ⟨gk, rows⟩ := g
    rw [processGroups] at h
    cases hc : groupCoords rows with
    | error e => rw [hc] at h; cases h
    | ok coords =>
      simp only [hc] at h
      cases hw : weekVal gk.2.2.1 with
      | error e => rw [hw] at h; cases h
      | ok w =>
        simp only [hw] at h
        cases hrec : processGroups geo gs
            (addResult res (gk.1, gk.2.1) (calculate_total_distance_for_day geo coords)) with
        | error e => rw [hrec] at h; cases h
        | ok p =>
          obtain ⟨resF2, ds2⟩ := p
          simp only [hrec] at h
          injection h with h2
          injection h2 with ha hb
          subst ha
          exact ih _ resF2 ds2 (addResult_nodup res _ _ hnd) hrec

/-- The group loop invariant: each accumulated total is the sum of the
distances of the detailed entries recorded for that key. -/
theorem processGroups_lookup (geo : Geo) :
    ∀ (gs : List (GKey × List Row)) (res resF : Results) (ds : List DayResult),
      processGroups geo gs res = .ok (resF, ds) →
      ∀ k : Cell × Cell,
        lookupQ resF k = lookupQ res k
          + ((ds.filter (fun dr => decide ((dr.so_name, dr.so_erp) = k))).map
              (fun dr => dr.distance_km)).sum := by
  intro gs
  induction gs with
  | nil =>
    intro res resF ds h k
    rw [processGroups] at h
    injection h with h2
    injection h2 with ha hb
    subst ha
    subst hb
    simp
  | cons g gs ih =>
    intro res resF ds h k
    obtain ⟨gk, rows⟩ := g
    rw [processGroups] at h
    cases hc : groupCoords rows with
    | error e => rw [hc] at h; cases h
    | ok coords =>
      simp only [hc] at h
      cases hw : weekVal gk.2.2.1 with
      | error e => rw [hw] at h; cases h
      | ok w =>
        simp only [hw] at h
        cases hrec : processGroups geo gs
            (addResult res (gk.1, gk.2.1) (calculate_total_distance_for_day geo coords)) with
        | error e => rw [hrec] at h; cases h
        | ok p =>
          obtain ⟨resF2, ds2⟩ := p
          simp only [hrec] at h
          injection h with h2
          injection h2 with ha hb
          subst ha
          subst hb
          rw [ih _ resF2 ds2 hrec k, addResult_lookup]
          by_cases hk : (gk.1, gk.2.1) = k
          · rw [if_pos hk, List.filter_cons, if_pos (decide_eq_true hk)]
            simp only [List.map_cons, List.sum_cons]
            ring
          · rw [if_neg hk, List.filter_cons, if_neg (by simpa using hk)]

/-- Each day distance is a whole number of hundredths. -/
theorem day_distance_centi (geo : Geo) (coords : List Coord) :
    ∃ z : ℤ, calculate_total_distance_for_day geo coords = (z : ℚ)/100 := by
  rw [day_distance_eq]
  exact round2_isCenti _

/-- Each recorded breakdown distance is a whole number of hundredths. -/
theorem processGroups_distance_centi (geo : Geo) :
    ∀ (gs : List (GKey × List Row)) (res resF : Results) (ds : List DayResult),
      processGroups geo gs res = .ok (resF, ds) →
      ∀ dr ∈ ds, ∃ z : ℤ, dr.distance_km = (z : ℚ)/100 := by
  intro gs
  induction gs with
  | nil =>
    intro res resF ds h dr hdr
    rw [processGroups] at h
    injection h with h2
    injection h2 with ha hb
    subst hb
    simp at hdr
  | cons g gs ih =>
    intro res resF ds h dr hdr
    obtain ⟨gk, rows⟩ := g
    rw [processGroups] at h
    cases hc : groupCoords rows with
    | error e => rw [hc] at h; cases h
    | ok coords =>
      simp only [hc] at h
      cases hw : weekVal gk.2.2.1 with
      | error e => rw [hw] at h; cases h
      | ok w =>
        simp only [hw] at h
        cases hrec : processGroups geo gs
            (addResult res (gk.1, gk.2.1) (calculate_total_distance_for_day geo coords)) with
        | error e => rw [hrec] at h; cases h
        | ok p =>
          obtain ⟨resF2, ds2⟩ := p
          simp only [hrec] at h
          injection h with h2
          injection h2 with ha hb
          subst hb
          cases List.mem_cons.mp hdr with
          | inl hh =>
            subst hh
            exact day_distance_centi geo coords
          | inr hh => exact ih _ resF2 ds2 hrec dr hh

/-- A sum of hundredths is a hundredth. -/
theorem sum_centi :
    ∀ l : List ℚ, (∀ x ∈ l, ∃ z : ℤ, x = (z : ℚ)/100) → ∃ z : ℤ, l.sum = (z : ℚ)/100 := by
  intro l
  induction l with
  | nil => intro _; exact ⟨0, by norm_num⟩
  | cons x l ih =>
    intro hall
    obtain ⟨z1, hz1⟩ := hall x (List.mem_cons_self x l)
    obtain ⟨z2, hz2⟩ := ih (fun y hy => hall y (List.mem_cons_of_mem x hy))
    refine ⟨z1 + z2, ?_⟩
    rw [List.sum_cons, hz1, hz2]
    push_cast
    ring

/-- C3: every summary total equals the sum of that salesperson's breakdown
distances, within the 0.01 rounding tolerance (in this exact model the two
agree exactly). -/
theorem C3_summary_total_eq_day_sum (geo : Geo) (input : Except String DataFrame)
    (s : List SummaryEntry) (d : List DayResult) (e : SummaryEntry)
    (h : calculate_monthly_distance geo input = .ok (.success s d)) (he : e ∈ s) :
    |e.total_monthly_distance_km
      - ((d.filter (fun dr => decide (dr.so_name = e.so_name ∧ dr.so_erp = e.so_erp))).map
          (fun dr => dr.distance_km)).sum| ≤ 1/100 := by
  obtain ⟨df, hin, res, hp, hsum⟩ := calc_success_inv geo input s d h
  have hperm := List.perm_insertionSort summaryLe (mkSummary res)
  have he2 : e ∈ mkSummary res := by
    rw [hsum] at he
    unfold sortSummary at he
    exact hperm.mem_iff.mp he
  obtain ⟨⟨k, v⟩, hkv, hev⟩ := List.mem_map.mp he2
  simp only at hev
  subst hev
  have hnod : (res.map Prod.fst).Nodup :=
    processGroups_nodup geo _ [] res d (by simp) hp
  have hv : lookupQ res k = v := lookupQ_mem res k v hnod hkv
  have hlook := processGroups_lookup geo _ [] res d hp k
  have hsum2 : v = ((d.filter (fun dr => decide ((dr.so_name, dr.so_erp) = k))).map
      (fun dr => dr.distance_km)).sum := by
    rw [← hv, hlook]
    simp [lookupQ]
  have hcenti : ∃ z : ℤ, v = (z : ℚ)/100 := by
    rw [hsum2]
    apply sum_centi
    intro x hx
    obtain ⟨dr, hdr, hdrx⟩ := List.mem_map.mp hx
    obtain ⟨z, hz⟩ := processGroups_distance_centi geo _ [] res d hp dr
      (List.mem_of_mem_filter hdr)
    exact ⟨z, by rw [← hdrx, hz]⟩
  have hfilter :
      d.filter (fun dr => decide ((dr.so_name, dr.so_erp) = k))
        = d.filter (fun dr => decide (dr.so_name = k.1 ∧ dr.so_erp = k.2)) := by
    apply List.filter_congr
    intro dr _
    simp [Prod.ext_iff]
  obtain ⟨z, hz⟩ := hcenti
  simp only
  rw [← hfilter, ← hsum2, hz, round2_centi]
  simp

/-- Witness for C3 at a dataset with one salesperson and two days. -/
theorem C3_summary_total_eq_day_sum_witness :
    calculate_monthly_distance geoW3 (.ok dfW3) = .ok (.success
      [⟨.str "Ann", .str "E1", 5⟩]
      [⟨.str "Ann", .str "E1", .num 1, "Mon", 5, 2⟩,
       ⟨.str "Ann", .str "E1", .num 1, "Tue", 0, 1⟩]) ∧
    (⟨.str "Ann", .str "E1", 5⟩ : SummaryEntry) ∈
      ([⟨.str "Ann", .str "E1", 5⟩] : List SummaryEntry) ∧
    |(⟨.str "Ann", .str "E1", 5⟩ : SummaryEntry).total_monthly_distance_km
      - ((([⟨.str "Ann", .str "E1", .num 1, "Mon", 5, 2⟩,
            ⟨.str "Ann", .str "E1", .num 1, "Tue", 0, 1⟩] : List DayResult).filter
            (fun dr => decide (dr.so_name = (⟨.str "Ann", .str "E1", 5⟩ : SummaryEntry).so_name ∧
              dr.so_erp = (⟨.str "Ann", .str "E1", 5⟩ : SummaryEntry).so_erp))).map
          (fun dr => dr.distance_km)).sum| ≤ 1/100 := by
  have h : calculate_monthly_distance geoW3 (.ok dfW3) = .ok (.success
      [⟨.str "Ann", .str "E1", 5⟩]
      [⟨.str "Ann", .str "E1", .num 1, "Mon", 5, 2⟩,
       ⟨.str "Ann", .str "E1", .num 1, "Tue", 0, 1⟩]) := by decide
  exact ⟨h, by decide,
    C3_summary_total_eq_day_sum geoW3 (.ok dfW3) _ _ _ h (by decide)⟩

/-! ## Outlet counts -/

/-- A converted column has one value per row. -/
theorem colFloats_ok_length (c : String) :
    ∀ (rows : List Row) (vs : List (Option ℚ)),
      colFloats c rows = .ok vs → vs.length = rows.length := by
  intro rows
  induction rows with
  | nil =>
    intro vs h
    rw [colFloats] at h
    injection h with h2
    rw [← h2]
    rfl
  | cons r rs ih =>
    intro vs h
    rw [colFloats] at h
    cases hv : (getCell r c).toFloat with
    | error e => rw [hv] at h; cases h
    | ok v =>
      simp only [hv] at h
      cases hrec : colFloats c rs with
      | error e => rw [hrec] at h; cases h
      | ok vs2 =>
        simp only [hrec] at h
        injection h with h2
        rw [← h2]
        simp [ih vs2 hrec]

/-- The zipped coordinates have one pair per group row. -/
theorem groupCoords_ok_length (rows : List Row) (coords : List Coord)
    (h : groupCoords rows = .ok coords) : coords.length = rows.length := by
  rw [groupCoords] at h
  cases hla : colFloats "Latitude" rows with
  | error e => rw [hla] at h; cases h
  | ok las =>
    simp only [hla] at h
    cases hlo : colFloats "Longitude" rows with
    | error e => rw [hlo] at h; cases h
    | ok los =>
      simp only [hlo] at h
      injection h with h2
      rw [← h2]
      rw [List.length_zip, colFloats_ok_length _ _ _ hla, colFloats_ok_length _ _ _ hlo]
      exact Nat.min_self _

/-- The group loop emits one breakdown entry per group, whose outlet count
is the row count of that group. -/
theorem processGroups_outlets (geo : Geo) :
    ∀ (gs : List (GKey × List Row)) (res resF : Results) (ds : List DayResult),
      processGroups geo gs res = .ok (resF, ds) →
      ds.length = gs.length ∧
        ∀ i (h1 : i < ds.length) (h2 : i < gs.length),
          (ds.get ⟨i, h1⟩).outlets_visited = ((gs.get ⟨i, h2⟩).2).length := by
  intro gs
  induction gs with
  | nil =>
    intro res resF ds h
    rw [processGroups] at h
    injection h with h2
    injection h2 with ha hb
    subst hb
    exact ⟨rfl, fun i h1 h2 => absurd h1 (Nat.not_lt_zero i)⟩
  | cons g gs ih =>
    intro res resF ds h
    obtain ⟨gk, rows⟩ := g
    rw [processGroups] at h
    cases hc : groupCoords rows with
    | error e => rw [hc] at h; cases h
    | ok coords =>
      simp only [hc] at h
      cases hw : weekVal gk.2.2.1 with
      | error e => rw [hw] at h; cases h
      | ok w =>
        simp only [hw] at h
        cases hrec : processGroups geo gs
            (addResult res (gk.1, gk.2.1) (calculate_total_distance_for_day geo coords)) with
        | error e => rw [hrec] at h; cases h
        | ok p =>
          obtain ⟨resF2, ds2⟩ := p
          simp only [hrec] at h
          injection h with h2
          injection h2 with ha hb
          subst hb
          obtain ⟨hlen, hall⟩ := ih _ resF2 ds2 hrec
          refine ⟨by simp [hlen], ?_⟩
          intro i h1 h2
          cases i with
          | zero =>
            simp only [List.get]
            exact groupCoords_ok_length rows coords hc
          | succ i2 =>
            simp only [List.get]
            exact hall i2 (by simpa using h1) (by simpa using h2)

/-- C8: in every successful result, each breakdown entry counts exactly the
rows of its (salesperson, id, week, day) group after the
missing-coordinate rows have been dropped: the breakdown matches the group
list of the sorted, coerced, coordinate-filtered frame entry by entry. -/
theorem C8_outlets_eq_group_size (geo : Geo) (input : Except String DataFrame)
    (s : List SummaryEntry) (d : List DayResult)
    (h : calculate_monthly_distance geo input = .ok (.success s d)) :
    ∃ df : DataFrame, input = .ok df ∧
      d.length = (groupRows (sortRows (coerceVisitOrder (dropnaLatLong df))).rows).length ∧
      ∀ i (h1 : i < d.length)
        (h2 : i < (groupRows (sortRows (coerceVisitOrder (dropnaLatLong df))).rows).length),
        (d.get ⟨i, h1⟩).outlets_visited
          = ((groupRows (sortRows (coerceVisitOrder (dropnaLatLong df))).rows).get
              ⟨i, h2⟩).2.length := by
  obtain ⟨df, hin, res, hp, _⟩ := calc_success_inv geo input s d h
  obtain ⟨hlen, hall⟩ := processGroups_outlets geo _ [] res d hp
  exact ⟨df, hin, hlen, hall⟩

/-- Witness for C8 at a dataset with groups of two and one rows after a
dropped row. -/
theorem C8_outlets_eq_group_size_witness :
    calculate_monthly_distance geoW8 (.ok dfW8) = .ok (.success
      [⟨.str "Cara", .str "E3", 2⟩]
      [⟨.str "Cara", .str "E3", .num 1, "Mon", 2, 2⟩,
       ⟨.str "Cara", .str "E3", .num 1, "Tue", 0, 1⟩]) ∧
    (∃ df : DataFrame, (Except.ok dfW8 : Except String DataFrame) = .ok df ∧
      ([⟨.str "Cara", .str "E3", .num 1, "Mon", 2, 2⟩,
        ⟨.str "Cara", .str "E3", .num 1, "Tue", 0, 1⟩] : List DayResult).length
        = (groupRows (sortRows (coerceVisitOrder (dropnaLatLong df))).rows).length ∧
      ∀ i (h1 : i < ([⟨.str "Cara", .str "E3", .num 1, "Mon", 2, 2⟩,
          ⟨.str "Cara", .str "E3", .num 1, "Tue", 0, 1⟩] : List DayResult).length)
        (h2 : i < (groupRows (sortRows (coerceVisitOrder (dropnaLatLong df))).rows).length),
        (([⟨.str "Cara", .str "E3", .num 1, "Mon", 2, 2⟩,
           ⟨.str "Cara", .str "E3", .num 1, "Tue", 0, 1⟩] : List DayResult).get
            ⟨i, h1⟩).outlets_visited
          = ((groupRows (sortRows (coerceVisitOrder (dropnaLatLong df))).rows).get
              ⟨i, h2⟩).2.length) := by
  have h : calculate_monthly_distance geoW8 (.ok dfW8) = .ok (.success
      [⟨.str "Cara", .str "E3", 2⟩]
      [⟨.str "Cara", .str "E3", .num 1, "Mon", 2, 2⟩,
       ⟨.str "Cara", .str "E3", .num 1, "Tue", 0, 1⟩]) := by decide
  exact ⟨h, C8_outlets_eq_group_size geoW8 (.ok dfW8) _ _ h⟩

/-! ## Empty datasets after coordinate filtering -/

/-- Column validation passes when all required columns are present. -/
theorem findMissing_none_of (df : DataFrame)
    (hcols : ∀ c ∈ required_cols, c ∈ df.cols) : findMissing df = none := by
  rw [findMissing, List.find?_eq_none]
  intro c hc
  rw [(hasCol_iff df.cols c).mpr (hcols c hc)]
  simp

/-- C9: a readable dataset with all required columns whose rows all miss a
coordinate yields status success with an empty summary and an empty
breakdown. -/
theorem C9_all_missing_coords_empty_success (geo : Geo) (df : DataFrame)
    (hcols : ∀ c ∈ required_cols, c ∈ df.cols)
    (hall : ∀ r ∈ df.rows,
      (getCell r "Latitude").isna = true ∨ (getCell r "Longitude").isna = true) :
    calculate_monthly_distance geo (.ok df) = .ok (.success [] []) := by
  have hfm : findMissing df = none := findMissing_none_of df hcols
  have hdrop : (dropnaLatLong df).rows = [] := by
    rw [dropnaLatLong]
    simp only
    rw [List.filter_eq_nil_iff]
    intro r hr
    rcases hall r hr with hh | hh
    · simp [hh]
    · simp [hh]
  have hco : (coerceVisitOrder (dropnaLatLong df)).rows = [] := by
    rw [coerceVisitOrder]
    by_cases hvo : hasCol (dropnaLatLong df).cols "VISIT_ORDER" = true
    · rw [if_pos hvo]
      simp [hdrop]
    · rw [if_neg hvo]
      exact hdrop
  have hck : checkSortKeys (coerceVisitOrder (dropnaLatLong df)) = true := by
    rw [checkSortKeys]
    apply List.all_eq_true.mpr
    intro c hc
    simp [mixedTypes, colCells, hco]
  have hsr : (sortRows (coerceVisitOrder (dropnaLatLong df))).rows = [] := by
    rw [sortRows]
    simp [hco]
  have hgr : groupRows (sortRows (coerceVisitOrder (dropnaLatLong df))).rows = [] := by
    rw [hsr]
    rfl
  simp only [calculate_monthly_distance, hfm]
  rw [if_pos hck, hgr]
  rfl

/-- Witness for C9 at a two-row dataset with no complete coordinates. -/
theorem C9_all_missing_coords_empty_success_witness :
    (∀ c ∈ required_cols, c ∈ dfW9.cols) ∧
    (∀ r ∈ dfW9.rows,
      (getCell r "Latitude").isna = true ∨ (getCell r "Longitude").isna = true) ∧
    calculate_monthly_distance geoW9 (.ok dfW9) = .ok (.success [] []) :=
  ⟨by decide, by decide,
    C9_all_missing_coords_empty_success geoW9 dfW9 (by decide) (by decide)⟩

/-! ## Exceptions across the component boundary -/

/-- Counterexample to C1 as stated: a dataset whose content is read
successfully and passes column validation but holds a non-numeric Latitude
string makes calculate_monthly_distance raise (astype ValueError escapes the
function), instead of returning a structured result dict. -/
theorem C1_counterexample_nonnumeric_latitude_raises :
    calculate_monthly_distance geoC1 (.ok dfC1bad)
      = .error "ValueError: could not convert string to float: abc" := by decide

/-- Coercing VISIT_ORDER leaves every other column of a row unchanged. -/
theorem getCell_coerceRow (r : Row) (c : String) (h : c ≠ "VISIT_ORDER") :
    getCell (coerceRow r) c = getCell r c := by
  induction r with
  | nil => rfl
  | cons kv rest ih =>
    obtain ⟨k, v⟩ := kv
    rw [coerceRow, List.map_cons]
    by_cases hk : k = "VISIT_ORDER"
    · rw [if_pos hk, getCell, getCell, if_neg (fun hh => h (hh.symm.trans hk)),
        if_neg (fun hh => h (hh.symm.trans hk))]
      exact ih
    · rw [if_neg hk, getCell, getCell]
      by_cases hkc : k = c
      · rw [if_pos hkc, if_pos hkc]
      · rw [if_neg hkc, if_neg hkc]
        exact ih

/-- After coercion the VISIT_ORDER cell is never a string. -/
theorem getCell_coerceRow_vo (r : Row) :
    (getCell (coerceRow r) "VISIT_ORDER").isStr = false := by
  induction r with
  | nil => rfl
  | cons kv rest ih =>
    obtain ⟨k, v⟩ := kv
    rw [coerceRow, List.map_cons]
    by_cases hk : k = "VISIT_ORDER"
    · rw [if_pos hk, getCell, if_pos hk]
      cases v with
      | na => rfl
      | num q => rfl
      | str s =>
        rw [toNumericCoerce]
        cases parseFloat s with
        | none => rfl
        | some q => rfl
    · rw [if_neg hk, getCell, if_neg hk]
      exact ih

/-- mixedTypes holds exactly when the column has a number and a string. -/
theorem mixedTypes_true_iff (cells : List Cell) :
    mixedTypes cells = true ↔
      (∃ x ∈ cells, x.isNum = true) ∧ (∃ x ∈ cells, x.isStr = true) := by
  simp [mixedTypes, List.any_eq_true, Bool.and_eq_true]

/-- A column without strings is not mixed. -/
theorem mixedTypes_false_of_no_str (cells : List Cell)
    (h : ∀ x ∈ cells, x.isStr = false) : mixedTypes cells = false := by
  cases hmt : mixedTypes cells with
  | false => rfl
  | true =>
    exfalso
    obtain ⟨_, x, hx, hstr⟩ := (mixedTypes_true_iff cells).mp hmt
    rw [h x hx] at hstr
    cases hstr

/-- Keys produced by dedupKeys come from the accumulator or the input. -/
theorem dedupKeys_mem :
    ∀ (ks : List GKey) (acc : List GKey) (k : GKey),
      k ∈ dedupKeys acc ks → k ∈ acc ∨ k ∈ ks := by
  intro ks
  induction ks with
  | nil =>
    intro acc k h
    rw [dedupKeys] at h
    exact Or.inl h
  | cons k2 ks ih =>
    intro acc k h
    rw [dedupKeys] at h
    by_cases he : keyElem k2 acc = true
    · rw [if_pos he] at h
      rcases ih acc k h with hh | hh
      · exact Or.inl hh
      · exact Or.inr (List.mem_cons_of_mem _ hh)
    · rw [if_neg he] at h
      rcases ih (acc ++ [k2]) k h with hh | hh
      · rcases List.mem_append.mp hh with hh2 | hh2
        · exact Or.inl hh2
        · exact Or.inr (List.mem_cons.mpr (Or.inl (List.mem_singleton.mp hh2)))
      · exact Or.inr (List.mem_cons_of_mem _ hh)

/-- The rows of every group are rows of the grouped frame. -/
theorem groupRows_rows_mem (l : List Row) (gk : GKey) (rows : List Row)
    (hg : (gk, rows) ∈ groupRows l) : ∀ r ∈ rows, r ∈ l := by
  intro r hr
  rw [groupRows] at hg
  obtain ⟨k0, _, hk0⟩ := List.mem_map.mp hg
  injection hk0 with h1 h2
  rw [← h2] at hr
  exact List.mem_of_mem_filter (List.mem_of_mem_filter hr)

/-- Every group key is the key of some row of the grouped frame. -/
theorem groupRows_key_mem (l : List Row) (gk : GKey) (rows : List Row)
    (hg : (gk, rows) ∈ groupRows l) : ∃ r ∈ l, rowGroupKey r = gk := by
  rw [groupRows] at hg
  obtain ⟨k0, hk0mem, hk0⟩ := List.mem_map.mp hg
  injection hk0 with h1 h2
  rcases dedupKeys_mem _ [] k0 hk0mem with hh | hh
  · simp at hh
  · obtain ⟨r, hr, hrk⟩ := List.mem_map.mp hh
    exact ⟨r, List.mem_of_mem_filter hr, hrk.trans h1⟩

/-- astype(float) cannot raise on a non-string cell. -/
theorem toFloat_ok_of (c : Cell) (h : c.isStr = false) : ∃ v, c.toFloat = .ok v := by
  cases c with
  | na => exact ⟨none, rfl⟩
  | num q => exact ⟨some q, rfl⟩
  | str s => cases h

/-- A column of non-string cells converts without raising. -/
theorem colFloats_ok_of (c : String) :
    ∀ rows : List Row, (∀ r ∈ rows, (getCell r c).isStr = false) →
      ∃ vs, colFloats c rows = .ok vs := by
  intro rows
  induction rows with
  | nil => intro _; exact ⟨[], rfl⟩
  | cons r rs ih =>
    intro hall
    obtain ⟨v, hv⟩ := toFloat_ok_of _ (hall r (List.mem_cons_self r rs))
    obtain ⟨vs, hvs⟩ := ih (fun r2 hr2 => hall r2 (List.mem_cons_of_mem r hr2))
    refine ⟨v :: vs, ?_⟩
    rw [colFloats, hv, hvs]

/-- A group whose coordinate cells are non-strings converts without raising. -/
theorem groupCoords_ok_of (rows : List Row)
    (hlat : ∀ r ∈ rows, (getCell r "Latitude").isStr = false)
    (hlong : ∀ r ∈ rows, (getCell r "Longitude").isStr = false) :
    ∃ cs, groupCoords rows = .ok cs := by
  obtain ⟨las, hlas⟩ := colFloats_ok_of "Latitude" rows hlat
  obtain ⟨los, hlos⟩ := colFloats_ok_of "Longitude" rows hlong
  refine ⟨las.zip los, ?_⟩
  rw [groupCoords, hlas, hlos]

/-- int(week) cannot raise on a non-string cell. -/
theorem weekVal_ok_of (c : Cell) (h : c.isStr = false) : ∃ w, weekVal c = .ok w := by
  cases c with
  | na => exact ⟨.na, rfl⟩
  | num q => exact ⟨.num (mkRat (pyTrunc q) 1), rfl⟩
  | str s => cases h

/-- The group loop cannot raise when every group converts its coordinates and
its week value without raising. -/
theorem processGroups_ok_of (geo : Geo) :
    ∀ gs : List (GKey × List Row),
      (∀ g ∈ gs, (∃ cs, groupCoords g.2 = .ok cs) ∧ (∃ w, weekVal g.1.2.2.1 = .ok w)) →
      ∀ res : Results, ∃ out, processGroups geo gs res = .ok out := by
  intro gs
  induction gs with
  | nil => intro _ res; exact ⟨(res, []), rfl⟩
  | cons g gs ih =>
    intro hgs res
    obtain ⟨gk, rows⟩ := g
    obtain ⟨⟨cs, hcs⟩, w, hw⟩ := hgs _ (List.mem_cons_self _ _)
    obtain ⟨out, hout⟩ := ih (fun g2 hg2 => hgs g2 (List.mem_cons_of_mem _ hg2))
      (addResult res (gk.1, gk.2.1) (calculate_total_distance_for_day geo cs))
    obtain ⟨resF, ds⟩ := out
    refine ⟨(resF,
      { so_name := gk.1, so_erp := gk.2.1, week := w, day := (gk.2.2.2).pyStr,
        distance_km := calculate_total_distance_for_day geo cs,
        outlets_visited := cs.length } :: ds), ?_⟩
    rw [processGroups]
    simp only [hcs, hw, hout]

/-- C1 amended: calculate_monthly_distance returns a structured result dict
(and never raises) for every dataset whose Latitude, Longitude and WEEK
values are numeric or missing and whose remaining sort key columns do not
mix numbers with strings; for other dataset content (for example a
non-numeric coordinate string) an exception can escape, as the
counterexample shows. -/
theorem C1_welltyped_returns_result (geo : Geo) (df : DataFrame)
    (hLat : ∀ r ∈ df.rows, (getCell r "Latitude").isStr = false)
    (hLong : ∀ r ∈ df.rows, (getCell r "Longitude").isStr = false)
    (hWeek : ∀ r ∈ df.rows, (getCell r "WEEK").isStr = false)
    (hName : mixedTypes (colCells df "SO NAME") = false)
    (hErp : mixedTypes (colCells df "SO_ERP_ID") = false)
    (hDay : mixedTypes (colCells df "DAY") = false) :
    ∃ r : CalcResult, calculate_monthly_distance geo (.ok df) = .ok r := by
  cases hfm : findMissing df with
  | some c =>
    exact ⟨.error ("Missing column: " ++ c), by simp [calculate_monthly_distance, hfm]⟩
  | none =>
    have hVO : hasCol df.cols "VISIT_ORDER" = true := by
      rw [findMissing, List.find?_eq_none] at hfm
      have hh := hfm "VISIT_ORDER" (by decide)
      simpa using hh
    have hrows1 : (coerceVisitOrder (dropnaLatLong df)).rows
        = (dropnaLatLong df).rows.map coerceRow := by
      have hVO2 : hasCol (dropnaLatLong df).cols "VISIT_ORDER" = true := hVO
      rw [coerceVisitOrder, if_pos hVO2]
    have hmem_chain : ∀ r ∈ (sortRows (coerceVisitOrder (dropnaLatLong df))).rows,
        ∃ r0 ∈ df.rows, r = coerceRow r0 := by
      intro r hr
      have hr2 : r ∈ (coerceVisitOrder (dropnaLatLong df)).rows :=
        ((List.perm_insertionSort _ _).mem_iff).mp hr
      rw [hrows1] at hr2
      obtain ⟨r0, hr0, hr0eq⟩ := List.mem_map.mp hr2
      exact ⟨r0, List.mem_of_mem_filter hr0, hr0eq.symm⟩
    have hcol_mem : ∀ c : String, c ≠ "VISIT_ORDER" →
        ∀ x ∈ colCells (coerceVisitOrder (dropnaLatLong df)) c,
          ∃ r0 ∈ df.rows, x = getCell r0 c := by
      intro c hcne x hx
      rw [colCells, hrows1] at hx
      obtain ⟨r1, hr1, hx1⟩ := List.mem_map.mp hx
      obtain ⟨r0, hr0, hr0eq⟩ := List.mem_map.mp hr1
      refine ⟨r0, List.mem_of_mem_filter hr0, ?_⟩
      rw [← hx1, ← hr0eq, getCell_coerceRow r0 c hcne]
    have htransfer : ∀ c : String, c ≠ "VISIT_ORDER" →
        mixedTypes (colCells df c) = false →
        mixedTypes (colCells (coerceVisitOrder (dropnaLatLong df)) c) = false := by
      intro c hcne hdf
      cases hmt : mixedTypes (colCells (coerceVisitOrder (dropnaLatLong df)) c) with
      | false => rfl
      | true =>
        exfalso
        obtain ⟨⟨x1, hx1, hn1⟩, x2, hx2, hs2⟩ := (mixedTypes_true_iff _).mp hmt
        obtain ⟨r1, hr1, he1⟩ := hcol_mem c hcne x1 hx1
        obtain ⟨r2, hr2, he2⟩ := hcol_mem c hcne x2 hx2
        have : mixedTypes (colCells df c) = true := by
          rw [mixedTypes_true_iff]
          constructor
          · exact ⟨x1, by rw [colCells]; exact List.mem_map.mpr ⟨r1, hr1, he1.symm⟩, hn1⟩
          · exact ⟨x2, by rw [colCells]; exact List.mem_map.mpr ⟨r2, hr2, he2.symm⟩, hs2⟩
        rw [hdf] at this
        cases this
    have hnostr : ∀ c : String, c ≠ "VISIT_ORDER" →
        (∀ r0 ∈ df.rows, (getCell r0 c).isStr = false) →
        mixedTypes (colCells (coerceVisitOrder (dropnaLatLong df)) c) = false := by
      intro c hcne hall
      apply mixedTypes_false_of_no_str
      intro x hx
      obtain ⟨r0, hr0, he⟩ := hcol_mem c hcne x hx
      rw [he]
      exact hall r0 hr0
    have hck : checkSortKeys (coerceVisitOrder (dropnaLatLong df)) = true := by
      rw [checkSortKeys]
      apply List.all_eq_true.mpr
      intro c hc
      rw [Bool.not_eq_true']
      rw [sort_cols] at hc
      simp only [List.mem_cons, List.not_mem_nil, or_false] at hc
      rcases hc with rfl | rfl | rfl | rfl | rfl
      · exact htransfer _ (by decide) hName
      · exact htransfer _ (by decide) hErp
      · exact hnostr _ (by decide) hWeek
      · exact htransfer _ (by decide) hDay
      · apply mixedTypes_false_of_no_str
        intro x hx
        rw [colCells, hrows1] at hx
        obtain ⟨r1, hr1, hx1⟩ := List.mem_map.mp hx
        obtain ⟨r0, _, hr0eq⟩ := List.mem_map.mp hr1
        rw [← hx1, ← hr0eq]
        exact getCell_coerceRow_vo r0
    have hgrp : ∀ g ∈ groupRows (sortRows (coerceVisitOrder (dropnaLatLong df))).rows,
        (∃ cs, groupCoords g.2 = .ok cs) ∧ (∃ w, weekVal g.1.2.2.1 = .ok w) := by
      intro g hg
      obtain ⟨gk, rows⟩ := g
      constructor
      · apply groupCoords_ok_of
        · intro r hr
          obtain ⟨r0, hr0, hre⟩ := hmem_chain r
            (groupRows_rows_mem _ gk rows hg r hr)
          rw [hre, getCell_coerceRow r0 _ (by decide)]
          exact hLat r0 hr0
        · intro r hr
          obtain ⟨r0, hr0, hre⟩ := hmem_chain r
            (groupRows_rows_mem _ gk rows hg r hr)
          rw [hre, getCell_coerceRow r0 _ (by decide)]
          exact hLong r0 hr0
      · obtain ⟨r, hr, hk⟩ := groupRows_key_mem _ gk rows hg
        have hwk : gk.2.2.1 = getCell r "WEEK" := by rw [← hk]; rfl
        rw [hwk]
        obtain ⟨r0, hr0, hre⟩ := hmem_chain r hr
        rw [hre, getCell_coerceRow r0 _ (by decide)]
        exact weekVal_ok_of _ (hWeek r0 hr0)
    obtain ⟨out, hout⟩ := processGroups_ok_of geo _ hgrp []
    obtain ⟨resF, ds⟩ := out
    refine ⟨.success (sortSummary (mkSummary resF)) ds, ?_⟩
    simp only [calculate_monthly_distance, hfm]
    rw [if_pos hck, hout]

/-- Witness for the amended C1 at a well-typed single-row dataset. -/
theorem C1_welltyped_returns_result_witness :
    (∀ r ∈ dfC1w.rows, (getCell r "Latitude").isStr = false) ∧
    (∀ r ∈ dfC1w.rows, (getCell r "Longitude").isStr = false) ∧
    (∀ r ∈ dfC1w.rows, (getCell r "WEEK").isStr = false) ∧
    mixedTypes (colCells dfC1w "SO NAME") = false ∧
    mixedTypes (colCells dfC1w "SO_ERP_ID") = false ∧
    mixedTypes (colCells dfC1w "DAY") = false ∧
    ∃ r : CalcResult, calculate_monthly_distance geoC1w (.ok dfC1w) = .ok r :=
  ⟨by decide, by decide, by decide, by decide, by decide, by decide,
    C1_welltyped_returns_result geoC1w dfC1w (by decide) (by decide) (by decide)
      (by decide) (by decide) (by decide)⟩
